import Mathlib

/-!
Shallow embedding of `src/skabelon/skabelon.py`, a CLI front-end for a
templating engine.  The program parses command-line flags, dynamically loads a
user "dispatch" extension, parses repeated `KEY:VALUE` dispatch options into a
dict, invokes the extension's `dispatch` entry point with those options as
keyword arguments, and for each yielded `(template_name, context, output_file)`
triple loads the template, opens the output file for writing and writes the
rendered text.  A top-level handler around `sys.exit(main())` remaps every
`SystemExit` to exit code 0 and maps `KeyboardInterrupt` and any other
exception to exit code 1.

Strings that the Python code splits character by character (the dispatch-opt
tokens) are embedded as `List Char`; other strings (paths, template names,
file contents) stay `String`.  External collaborators (the filesystem checks
from `pathlib`, the Jinja2 environment, the loaded extension module) are
embedded as explicit data supplied in a `World`, and the observable effects of
a run (extension load, dispatch call, file opens and writes) are recorded as
an event trace.
-/

namespace Skabelon

/-- Error message for a malformed dispatch option, from `skabelon.py` lines
39-40 (the `err_msg` local in `main`). -/
def dispatchOptErrMsg : String :=
  "--dispatch-args must be passed a key:value par separated by a \":\""

/-- Membership test of a character in a character list; embeds the Python
expression `':' in input_str` (line 41). -/
def containsChar (c : Char) : List Char → Bool
  | [] => false
  | x :: xs => if x = c then true else containsChar c xs

/-- Python's `str.split(sep)` for a one-character separator, on `List Char`:
`"a:b".split(':') = ["a", "b"]`, `"".split(':') = [""]`, and
`":".split(':') = ["", ""]`.  Embeds `input_str.split(':')` (line 43). -/
def splitOnChar (c : Char) : List Char → List (List Char)
  | [] => [[]]
  | x :: xs =>
    match splitOnChar c xs with
    | [] => [[]]
    | y :: ys => if x = c then [] :: y :: ys else (x :: y) :: ys

/-- Python's string join for a one-character separator, on `List Char`;
embeds the expression joining `parts[1:]` with `':'` (line 46). -/
def joinChar (c : Char) : List (List Char) → List Char
  | [] => []
  | [x] => x
  | x :: y :: ys => x ++ c :: joinChar c (y :: ys)

/-- Parsing of one `--dispatch-opt` token into a `(key, value)` pair, embedding
`skabelon.py` lines 39-50: raise unless the token contains a `':'`; split on
`':'`; with more than two parts the key is the first part and the value is the
join over `':'` of the rest; with exactly two parts they are key and value; fewer
than two parts raises (dead code, kept for fidelity). -/
def parseToken (s : List Char) : Except String (List Char × List Char) :=
  if containsChar ':' s then
    match splitOnChar ':' s with
    | k :: v :: rest =>
      if rest.length > 0 then .ok (k, joinChar ':' (v :: rest))
      else .ok (k, v)
    | _ => .error dispatchOptErrMsg
  else .error dispatchOptErrMsg

/-- Assignment `d[k] = v` on an association-list embedding of a Python dict:
replace the value at the first occurrence of the key, or append a new entry. -/
def upsert {α β : Type} [DecidableEq α] : List (α × β) → α → β → List (α × β)
  | [], k, v => [(k, v)]
  | (k0, v0) :: rest, k, v =>
    if k0 = k then (k0, v) :: rest else (k0, v0) :: upsert rest k v

/-- Lookup `d[k]` on an association-list embedding of a Python dict: value at
the first occurrence of the key. -/
def lookupKey {α β : Type} [DecidableEq α] : List (α × β) → α → Option β
  | [], _ => none
  | (k0, v0) :: rest, k => if k0 = k then some v0 else lookupKey rest k

/-- Dispatch options dict: keys and values are character lists. -/
abbrev OptDict := List (List Char × List Char)

/-- Worker for `parseDispatchOpts`: the `for input_str in args.dispatch_opts`
loop of `skabelon.py` lines 38-51, threading the `dispatch_args` dict. -/
def parseOptsAux (acc : OptDict) : List (List Char) → Except String OptDict
  | [] => .ok acc
  | t :: ts =>
    match parseToken t with
    | .error e => .error e
    | .ok (k, v) => parseOptsAux (upsert acc k v) ts

/-- Builds the `dispatch_args` dict from the raw `--dispatch-opt` tokens,
starting from the empty dict of line 37. -/
def parseDispatchOpts (ts : List (List Char)) : Except String OptDict :=
  parseOptsAux [] ts

/-- Value carried by the last token in the list whose key part equals `k`
(later command-line occurrences take precedence). -/
def lastVal (k : List Char) : List (List Char) → Option (List Char)
  | [] => none
  | t :: ts =>
    match lastVal k ts with
    | some v => some v
    | none =>
      match parseToken t with
      | .ok (k0, v0) => if k0 = k then some v0 else none
      | .error _ => none

/-- Number of entries of the dict carrying the key `k`. -/
def countKey (d : OptDict) (k : List Char) : Nat :=
  (d.filter (fun p => p.1 = k)).length

/-! Basic lemmas about the splitting primitives. -/

theorem splitOnChar_ne_nil (c : Char) (s : List Char) : splitOnChar c s ≠ [] := by
  cases s with
  | nil => simp [splitOnChar]
  | cons x xs =>
    simp only [splitOnChar]
    match h : splitOnChar c xs with
    | [] => simp
    | y :: ys =>
      by_cases hx : x = c <;> simp [hx]

theorem containsChar_eq_false_iff (c : Char) (s : List Char) :
    containsChar c s = false ↔ c ∉ s := by
  induction s with
  | nil => simp [containsChar]
  | cons x xs ih =>
    by_cases hx : x = c
    · subst hx; simp [containsChar]
    · simp [containsChar, hx, ih, Ne.symm hx]

theorem splitOnChar_no_sep (c : Char) (s : List Char) (h : containsChar c s = false) :
    splitOnChar c s = [s] := by
  induction s with
  | nil => simp [splitOnChar]
  | cons x xs ih =>
    simp only [containsChar] at h
    by_cases hx : x = c
    · simp [hx] at h
    · simp only [if_neg hx] at h
      simp [splitOnChar, ih h, hx]

theorem splitOnChar_append (c : Char) (k v : List Char)
    (h : containsChar c k = false) :
    splitOnChar c (k ++ c :: v) = k :: splitOnChar c v := by
  induction k with
  | nil =>
    show splitOnChar c (c :: v) = [] :: splitOnChar c v
    rw [splitOnChar]
    cases hv : splitOnChar c v with
    | nil => exact absurd hv (splitOnChar_ne_nil c v)
    | cons y ys => simp
  | cons x xs ih =>
    simp only [containsChar] at h
    by_cases hx : x = c
    · simp [hx] at h
    · rw [if_neg hx] at h
      rw [List.cons_append, splitOnChar, ih h]
      simp [hx]

theorem joinChar_splitOnChar (c : Char) (s : List Char) :
    joinChar c (splitOnChar c s) = s := by
  induction s with
  | nil => simp [splitOnChar, joinChar]
  | cons x xs ih =>
    simp only [splitOnChar]
    match h : splitOnChar c xs with
    | [] => exact absurd h (splitOnChar_ne_nil c xs)
    | y :: ys =>
      rw [h] at ih
      by_cases hx : x = c
      · subst hx
        simp only [if_pos rfl, joinChar]
        exact congrArg (x :: ·) ih
      · simp only [if_neg hx]
        cases ys with
        | nil => simp only [joinChar] at ih ⊢; rw [ih]
        | cons z zs => simp only [joinChar] at ih ⊢; rw [List.cons_append, ih]

/-- A token with a separator splits into the part before the first `':'` and
the whole remainder after it, further separators kept unsplit. -/
theorem parseToken_split (k v : List Char) (h : containsChar ':' k = false) :
    parseToken (k ++ ':' :: v) = .ok (k, v) := by
  have hmem : containsChar ':' (k ++ ':' :: v) = true := by
    by_contra hc
    have := (containsChar_eq_false_iff ':' (k ++ ':' :: v)).mp (by
      cases hcc : containsChar ':' (k ++ ':' :: v)
      · rfl
      · exact absurd hcc hc)
    exact this (by simp)
  have hsplit := splitOnChar_append ':' k v h
  unfold parseToken
  rw [hmem, hsplit]
  simp only [if_pos rfl]
  match hv : splitOnChar ':' v with
  | [] => exact absurd hv (splitOnChar_ne_nil ':' v)
  | v1 :: rest =>
    have hjoin : joinChar ':' (v1 :: rest) = v := by
      rw [← hv]; exact joinChar_splitOnChar ':' v
    cases rest with
    | nil =>
      simp only [joinChar] at hjoin
      simp [hjoin]
    | cons r rs =>
      simp only [List.length_cons, gt_iff_lt, Nat.succ_pos, if_pos]
      rw [hjoin]

/-- A token without a separator is rejected with the configuration error. -/
theorem parseToken_no_sep (s : List Char) (h : containsChar ':' s = false) :
    parseToken s = .error dispatchOptErrMsg := by
  unfold parseToken
  rw [h]
  simp

/-! Lemmas about the dict built by the option-parsing loop. -/

theorem lookupKey_upsert_same {α β : Type} [DecidableEq α]
    (d : List (α × β)) (k : α) (v : β) :
    lookupKey (upsert d k v) k = some v := by
  induction d with
  | nil => simp [upsert, lookupKey]
  | cons p rest ih =>
    by_cases hk : p.1 = k
    · simp [upsert, lookupKey, hk]
    · simp [upsert, lookupKey, hk, ih]

theorem lookupKey_upsert_other {α β : Type} [DecidableEq α]
    (d : List (α × β)) (k k2 : α) (v : β) (hne : k2 ≠ k) :
    lookupKey (upsert d k v) k2 = lookupKey d k2 := by
  induction d with
  | nil => simp [upsert, lookupKey, Ne.symm hne]
  | cons p rest ih =>
    by_cases hk : p.1 = k
    · simp only [upsert, if_pos hk]
      have hk2 : ¬ p.1 = k2 := fun h => hne (h ▸ hk)
      simp [lookupKey, hk2]
    · simp [upsert, lookupKey, hk, ih]

theorem parseOptsAux_lookup (k : List Char) (ts : List (List Char)) :
    ∀ (acc d : OptDict), parseOptsAux acc ts = .ok d →
      lookupKey d k =
        match lastVal k ts with
        | some v => some v
        | none => lookupKey acc k := by
  induction ts with
  | nil =>
    intro acc d h
    simp only [parseOptsAux] at h
    cases h
    simp [lastVal]
  | cons t rest ih =>
    intro acc d h
    rw [parseOptsAux] at h
    cases hp : parseToken t with
    | error e => simp [hp] at h
    | ok kv =>
      obtain ⟨k0, v0⟩ := kv
      simp only [hp] at h
      have hrec := ih (upsert acc k0 v0) d h
      rw [hrec]
      cases hl : lastVal k rest with
      | some v => simp [lastVal, hl]
      | none =>
        simp only [lastVal, hl, hp]
        by_cases hk : k0 = k
        · subst hk
          simp [lookupKey_upsert_same]
        · simp [hk, lookupKey_upsert_other acc k0 k v0 (fun hh => hk hh.symm)]

theorem countKey_upsert_other (d : OptDict) (k k2 v : List Char) (hne : k2 ≠ k) :
    countKey (upsert d k v) k2 = countKey d k2 := by
  induction d with
  | nil => simp [upsert, countKey, Ne.symm hne]
  | cons p rest ih =>
    by_cases hp : p.1 = k
    · simp [upsert, countKey, hp, List.filter, Ne.symm hne]
    · simp only [upsert, if_neg hp]
      simp only [countKey, List.filter] at ih ⊢
      cases hd : decide (p.1 = k2) <;> simp [hd, ih]

theorem countKey_upsert_same (d : OptDict) (k v : List Char)
    (hd : countKey d k ≤ 1) : countKey (upsert d k v) k ≤ 1 := by
  induction d with
  | nil => simp [upsert, countKey, List.filter]
  | cons p rest ih =>
    by_cases hp : p.1 = k
    · simp only [upsert, if_pos hp]
      simpa [countKey, List.filter, hp] using hd
    · simp only [upsert, if_neg hp]
      simp only [countKey, List.filter, hp, decide_False] at hd ⊢
      exact ih hd

theorem lookupKey_some_countKey_pos (d : OptDict) (k v : List Char)
    (h : lookupKey d k = some v) : 1 ≤ countKey d k := by
  induction d with
  | nil => simp [lookupKey] at h
  | cons p rest ih =>
    by_cases hp : p.1 = k
    · simp [countKey, List.filter, hp]
    · simp only [lookupKey, if_neg hp] at h
      simp only [countKey, List.filter, hp, decide_False]
      exact ih h

theorem parseOptsAux_countKey (k : List Char) (ts : List (List Char)) :
    ∀ (acc d : OptDict), parseOptsAux acc ts = .ok d →
      countKey acc k ≤ 1 → countKey d k ≤ 1 := by
  induction ts with
  | nil =>
    intro acc d h hacc
    simp only [parseOptsAux] at h
    cases h
    exact hacc
  | cons t rest ih =>
    intro acc d h hacc
    rw [parseOptsAux] at h
    cases hp : parseToken t with
    | error e => simp [hp] at h
    | ok kv =>
      obtain ⟨k0, v0⟩ := kv
      simp only [hp] at h
      refine ih (upsert acc k0 v0) d h ?_
      by_cases hk : k = k0
      · subst hk
        exact countKey_upsert_same acc k v0 hacc
      · rw [countKey_upsert_other acc k0 k v0 hk]
        exact hacc

/-! Process model: command-line validation, extension loading, the render loop
and the top-level exception handler of `skabelon.py`. -/

/-- Filesystem oracle for the `pathlib` queries the program makes.
`pathExists p` embeds `Path(p).exists()`, `isDir p` embeds `Path(p).is_dir()`
and `suffixes p` embeds `Path(p).suffixes` (the list of dotted extension
components of the final path component, e.g. `[".py", ".txt"]` for
`foo.py.txt`). -/
structure FileSystem where
  pathExists : String → Bool
  isDir : String → Bool
  suffixes : String → List String

/-- Error message for `--templates`, `skabelon.py` line 88. -/
def templatesErrMsg : String := "The given path is not a valid template directory."

/-- Error message for `--dispatch`, `skabelon.py` line 94. -/
def dispatchErrMsg : String := "The given path is not a valid dispatch script."

/-- Embeds `directory_path` (`skabelon.py` lines 61-67): accept the input
string when the path exists and is a directory, otherwise raise
`argparse.ArgumentTypeError` with the given message. -/
def directory_path (fs : FileSystem) (errorMessage : String)
    (inputString : String) : Except String String :=
  if fs.pathExists inputString && fs.isDir inputString then .ok inputString
  else .error errorMessage

/-- Embeds `dispatch_file` (`skabelon.py` lines 70-76): accept the input
string when the path exists and `'.py' in path.suffixes`, otherwise raise
`argparse.ArgumentTypeError` with the given message. -/
def dispatch_file (fs : FileSystem) (errorMessage : String)
    (inputString : String) : Except String String :=
  if fs.pathExists inputString && (fs.suffixes inputString).contains ".py"
  then .ok inputString
  else .error errorMessage

/-- The exception kinds distinguished by the `__main__` handler of
`skabelon.py` lines 161-172: `SystemExit` with its status code,
`KeyboardInterrupt`, and any other `Exception` carried with its message. -/
inductive PyExc where
  | systemExit (code : Int)
  | keyboardInterrupt
  | exception (msg : String)
  deriving DecidableEq, Repr

/-- Observable effects of a run, in order: executing the dispatch extension
module (`exec_module`, line 35), calling its `dispatch` entry point (line 53),
opening an output file for writing — which creates or truncates it — (line
55), and writing rendered text to it (line 56). -/
inductive Event where
  | loadExt
  | callDispatch
  | openW (path : String)
  | fileWrite (path : String) (content : String)
  deriving DecidableEq, Repr

/-- Raw command line: the values of `--templates`, `--dispatch` and the
accumulated `--dispatch-opt` occurrences in order. -/
structure CmdLine where
  templates : String
  dispatch : String
  dispatchOpts : List (List Char)

/-- Embeds `parse_cmd_line` (`skabelon.py` lines 79-108) for an invocation
that supplies both required flags: the `type=` callables validate the two
paths, and any `ArgumentTypeError` makes argparse print usage and raise
`SystemExit(2)`.  `--dispatch-opt` values are appended unvalidated. -/
def parse_cmd_line (fs : FileSystem) (cl : CmdLine) : Except PyExc CmdLine :=
  match directory_path fs templatesErrMsg cl.templates with
  | .error _ => .error (.systemExit 2)
  | .ok t =>
    match dispatch_file fs dispatchErrMsg cl.dispatch with
    | .error _ => .error (.systemExit 2)
    | .ok d => .ok ⟨t, d, cl.dispatchOpts⟩

/-- Render context of one instruction: template variable bindings. -/
abbrev Ctx := List (String × String)

/-- A template as the templating engine delivers it: rendering against a
context either produces text or raises (undefined variable and similar). -/
abbrev Template := Ctx → Except String String

/-- One `(template_name, context, output_file)` triple yielded by the
dispatch extension's entry point. -/
structure Instruction where
  tname : String
  context : Ctx
  output : String
  deriving Repr

/-- The external collaborators of one run: the filesystem, what executing the
extension module does (`exec_module` may itself raise), the extension's
`dispatch` entry point, and the Jinja2 environment's template lookup rooted
at the template directory (`env.get_template`, which raises `TemplateNotFound`
or a syntax error as an ordinary exception). -/
structure World where
  fs : FileSystem
  loadResult : Except PyExc Unit
  dispatch : OptDict → Except PyExc (List Instruction)
  getTemplate : String → Except String Template

/-- Embeds the body of the `for` loop at `skabelon.py` lines 53-56 for one
instruction: `env.get_template(tname)` first (no file touched on failure),
then `open(output_file, 'w')` — creating or truncating the file — then
`template.render(**context)` and `fout.write(...)`.  Returns the events
performed and the exception, if any. -/
def processInstruction (g : String → Except String Template)
    (i : Instruction) : List Event × Option String :=
  match g i.tname with
  | .error e => ([], some e)
  | .ok t =>
    match t i.context with
    | .error e => ([.openW i.output], some e)
    | .ok text => ([.openW i.output, .fileWrite i.output text], none)

/-- Embeds the `for ... in dispatcher.dispatch(...)` loop (`skabelon.py`
lines 53-56): instructions are processed strictly in order and the first
exception aborts the rest. -/
def renderLoop (g : String → Except String Template) :
    List Instruction → List Event × Option String
  | [] => ([], none)
  | i :: rest =>
    match processInstruction g i with
    | (evs, some e) => (evs, some e)
    | (evs, none) =>
      match renderLoop g rest with
      | (evs2, r) => (evs ++ evs2, r)

/-- Embeds `main` (`skabelon.py` lines 25-58) together with the module-level
phases it triggers, as a result plus event trace: parse the command line
(any validation failure raises `SystemExit(2)` before anything else); load
and execute the dispatch extension module (lines 32-35); parse the
`--dispatch-opt` tokens into `dispatch_args` (lines 37-51, raising a plain
`Exception` on a malformed token); call `dispatch(**dispatch_args)` (line
53); run the render loop.  On success `main` returns 0. -/
def mainModel (w : World) (cl : CmdLine) : Except PyExc Int × List Event :=
  match parse_cmd_line w.fs cl with
  | .error e => (.error e, [])
  | .ok args =>
    match w.loadResult with
    | .error e => (.error e, [.loadExt])
    | .ok _ =>
      match parseDispatchOpts args.dispatchOpts with
      | .error msg => (.error (.exception msg), [.loadExt])
      | .ok opts =>
        match w.dispatch opts with
        | .error e => (.error e, [.loadExt, .callDispatch])
        | .ok insts =>
          match renderLoop w.getTemplate insts with
          | (evs, some msg) =>
            (.error (.exception msg), .loadExt :: .callDispatch :: evs)
          | (evs, none) => (.ok 0, .loadExt :: .callDispatch :: evs)

/-- Embeds the `__main__` block (`skabelon.py` lines 161-172):
`sys.exit(main())` raises `SystemExit(main())`; `except SystemExit` catches
every `SystemExit` — whatever its status — and exits 0; `KeyboardInterrupt`
exits 1; any other exception prints its traceback and exits 1. -/
def topLevel (r : Except PyExc Int) : Int :=
  match r with
  | .ok _ => 0
  | .error (.systemExit _) => 0
  | .error .keyboardInterrupt => 1
  | .error (.exception _) => 1

/-- Full process: run `main` under the `__main__` handler, returning the
final exit code and the event trace. -/
def runSkabelon (w : World) (cl : CmdLine) : Int × List Event :=
  ((mainModel w cl).1 |> topLevel, (mainModel w cl).2)

/-- Effect of one event on the file store (path ↦ content): opening for
writing creates or truncates, writing replaces the content. -/
def applyEvent (files : List (String × String)) : Event → List (String × String)
  | .openW p => upsert files p ""
  | .fileWrite p s => upsert files p s
  | .loadExt => files
  | .callDispatch => files

/-- Final file store after a trace of events, from an initial store. -/
def applyEvents (files : List (String × String)) (evs : List Event) :
    List (String × String) :=
  evs.foldl applyEvent files

/-- Paths of the files created or truncated by a trace, in order. -/
def createdPaths (evs : List Event) : List String :=
  evs.filterMap (fun e => match e with | .openW p => some p | _ => none)

/-! Worlds and command lines used to instantiate the theorems below on
concrete inputs. -/

/-- A template whose rendering always succeeds with empty text. -/
def emptyTemplate : Template := fun _ => .ok ""

/-- Filesystem in which every path exists, is a directory and carries the
suffix `.py`. -/
def fsAll : FileSystem := ⟨fun _ => true, fun _ => true, fun _ => [".py"]⟩

/-- World whose path checks always pass, whose extension loads cleanly and
yields no instructions, and whose template lookup always succeeds. -/
def wValid : World := ⟨fsAll, .ok (), fun _ => .ok [], fun _ => .ok emptyTemplate⟩

/-- Filesystem in which every path exists but none is a directory, as when
`--templates` names an ordinary file. -/
def fsFileTemplates : FileSystem := ⟨fun _ => true, fun _ => false, fun _ => [".py"]⟩

/-- World built over `fsFileTemplates`. -/
def wC1 : World := ⟨fsFileTemplates, .ok (), fun _ => .ok [], fun _ => .ok emptyTemplate⟩

/-- Command line whose `--templates` names a file and with no dispatch opts. -/
def clC1 : CmdLine := ⟨"tfile", "d.py", []⟩

/-- Command line with valid paths and the separator-free token `x`. -/
def clC3 : CmdLine := ⟨"templates", "d.py", [['x']]⟩

/-! Helper lemmas about the process model. -/

theorem parseToken_cases (s : List Char) :
    parseToken s = .error dispatchOptErrMsg ∨ ∃ kv, parseToken s = .ok kv := by
  unfold parseToken
  split
  · split
    · split
      · right; exact ⟨_, rfl⟩
      · right; exact ⟨_, rfl⟩
    · left; rfl
  · left; rfl

theorem parseOptsAux_error_of_bad (t : List Char)
    (ht : containsChar ':' t = false) :
    ∀ (ts : List (List Char)) (acc : OptDict), t ∈ ts →
      parseOptsAux acc ts = .error dispatchOptErrMsg := by
  intro ts
  induction ts with
  | nil => intro acc hmem; cases hmem
  | cons t0 rest ih =>
    intro acc hmem
    rw [parseOptsAux]
    rcases List.mem_cons.mp hmem with heq | hmem2
    · subst heq
      rw [parseToken_no_sep t ht]
    · cases hp : parseToken t0 with
      | error e =>
        rcases parseToken_cases t0 with hc | ⟨kv, hc⟩
        · rw [hp] at hc
          cases hc
          rfl
        · rw [hp] at hc; cases hc
      | ok kv =>
        obtain ⟨k0, v0⟩ := kv
        exact ih (upsert acc k0 v0) hmem2

theorem parse_cmd_line_opts (fs : FileSystem) (cl args : CmdLine)
    (h : parse_cmd_line fs cl = .ok args) :
    args.dispatchOpts = cl.dispatchOpts := by
  unfold parse_cmd_line at h
  split at h
  · cases h
  · split at h
    · cases h
    · cases h; rfl

/-! Claim theorems. -/

/-- C2: for every dispatch-opt token containing at least one `':'`, the
parsed entry maps the substring before the first `':'` (here `k`, which is
`':'`-free, so the displayed separator is the first) to the entire remainder
after it, further `':'` characters retained unsplit in the value. -/
theorem dispatch_opt_first_colon_split (k v : List Char)
    (h : containsChar ':' k = false) :
    parseToken (k ++ ':' :: v) = .ok (k, v) :=
  parseToken_split k v h

/-- Witness for C2 at the token `key:a:b`: key `key`, value `a:b`. -/
theorem dispatch_opt_first_colon_split_witness :
    containsChar ':' ['k', 'e', 'y'] = false ∧
      parseToken (['k', 'e', 'y'] ++ ':' :: ['a', ':', 'b']) =
        .ok (['k', 'e', 'y'], ['a', ':', 'b']) :=
  ⟨by decide,
    dispatch_opt_first_colon_split ['k', 'e', 'y'] ['a', ':', 'b'] (by decide)⟩

/-- C7: a dispatch-opt token with no separator always makes the option
parsing raise the configuration error — the token is never silently dropped
into an `.ok` dict — and the dispatch entry point is never invoked. -/
theorem dispatch_opt_no_sep_raises (w : World) (cl : CmdLine) (t : List Char)
    (hmem : t ∈ cl.dispatchOpts) (ht : containsChar ':' t = false) :
    parseDispatchOpts cl.dispatchOpts = .error dispatchOptErrMsg ∧
      Event.callDispatch ∉ (mainModel w cl).2 := by
  have herr : parseDispatchOpts cl.dispatchOpts = .error dispatchOptErrMsg :=
    parseOptsAux_error_of_bad t ht cl.dispatchOpts [] hmem
  refine ⟨herr, ?_⟩
  unfold mainModel
  cases hpc : parse_cmd_line w.fs cl with
  | error e => simp
  | ok args =>
    have hopts : args.dispatchOpts = cl.dispatchOpts :=
      parse_cmd_line_opts w.fs cl args hpc
    cases hl : w.loadResult with
    | error e => simp
    | ok u => simp [hopts, herr]

/-- Witness for C7 at the token `x` in an otherwise valid invocation. -/
theorem dispatch_opt_no_sep_raises_witness :
    parseDispatchOpts clC3.dispatchOpts = .error dispatchOptErrMsg ∧
      Event.callDispatch ∉ (mainModel wValid clC3).2 :=
  dispatch_opt_no_sep_raises wValid clC3 ['x'] (by decide) (by decide)

/-- C9: when the same key appears in several dispatch-opt tokens, the
resulting dict holds exactly one entry for that key, whose value is the one
of the last occurrence in command-line order. -/
theorem dispatch_opt_last_occurrence_wins (ts : List (List Char)) (d : OptDict)
    (k v : List Char) (h : parseDispatchOpts ts = .ok d)
    (hlast : lastVal k ts = some v) :
    lookupKey d k = some v ∧ countKey d k = 1 := by
  have hl := parseOptsAux_lookup k ts [] d h
  rw [hlast] at hl
  have hlk : lookupKey d k = some v := hl
  refine ⟨hlk, ?_⟩
  have hle := parseOptsAux_countKey k ts [] d h (by simp [countKey])
  have hge := lookupKey_some_countKey_pos d k v hlk
  omega

/-- Witness for C9 at the tokens `a:1`, `a:2`: the dict is exactly
`{a ↦ 2}`. -/
theorem dispatch_opt_last_occurrence_wins_witness :
    parseDispatchOpts [['a', ':', '1'], ['a', ':', '2']] =
        Except.ok [(['a'], ['2'])] ∧
      lastVal ['a'] [['a', ':', '1'], ['a', ':', '2']] = some ['2'] ∧
      (lookupKey [(['a'], ['2'])] ['a'] = some ['2'] ∧
        countKey [(['a'], ['2'])] ['a'] = 1) :=
  ⟨rfl, rfl,
    dispatch_opt_last_occurrence_wins [['a', ':', '1'], ['a', ':', '2']]
      [(['a'], ['2'])] ['a'] ['2'] rfl rfl⟩

/-- C10: the `__main__` handler catches every `SystemExit`, whatever its
status code — argparse's usage-error exit and any `sys.exit` from the loaded
extension included — and remaps it to process exit code 0; only plain
exceptions and the user interrupt produce exit code 1. -/
theorem top_level_remaps_system_exit :
    (∀ code : Int, topLevel (.error (.systemExit code)) = 0) ∧
      (∀ n : Int, topLevel (.ok n) = 0) ∧
      topLevel (.error .keyboardInterrupt) = 1 ∧
      (∀ msg : String, topLevel (.error (.exception msg)) = 1) :=
  ⟨fun _ => rfl, fun _ => rfl, rfl, fun _ => rfl⟩

/-- C1 counterexample: with `--templates` naming an existing non-directory
path, the run exits with code 0 — argparse's `SystemExit(2)` is remapped by
the top-level handler — not with a non-zero code as claimed (the extension
load is indeed never reached: the trace is empty). -/
theorem templates_file_counterexample : runSkabelon wC1 clC1 = (0, []) := rfl

/-- C1 amended: with `--templates` naming an existing non-directory path,
argument parsing fails with `SystemExit(2)` before the dispatch-extension
loading step (empty event trace), and the top-level handler remaps that exit
to process exit code 0. -/
theorem templates_file_exits_zero_before_load (w : World) (cl : CmdLine)
    (hex : w.fs.pathExists cl.templates = true)
    (hdir : w.fs.isDir cl.templates = false) :
    mainModel w cl = (.error (.systemExit 2), []) ∧ (runSkabelon w cl).1 = 0 := by
  have hdp : directory_path w.fs templatesErrMsg cl.templates =
      .error templatesErrMsg := by
    unfold directory_path
    rw [hex, hdir]
    simp
  have hpc : parse_cmd_line w.fs cl = .error (.systemExit 2) := by
    unfold parse_cmd_line
    rw [hdp]
  constructor
  · simp only [mainModel, hpc]
  · simp only [runSkabelon, mainModel, hpc, topLevel]

/-- Witness for the amended C1 on the concrete world `wC1`. -/
theorem templates_file_exits_zero_before_load_witness :
    wC1.fs.pathExists clC1.templates = true ∧
      wC1.fs.isDir clC1.templates = false ∧
      (mainModel wC1 clC1 = (.error (.systemExit 2), []) ∧
        (runSkabelon wC1 clC1).1 = 0) :=
  ⟨rfl, rfl, templates_file_exits_zero_before_load wC1 clC1 rfl rfl⟩

/-- C3 counterexample: with valid paths and the separator-free token `x`,
the failure does not come from the argument-parsing layer before extension
load: the event trace already contains the extension-load step, and the
raised condition is a plain exception (with the dispatch-opt message), not
argparse's `SystemExit`. -/
theorem dispatch_opt_after_load_counterexample :
    mainModel wValid clC3 = (.error (.exception dispatchOptErrMsg), [.loadExt]) :=
  rfl

/-- C3 amended: a dispatch-opt token with no separator is reported by a
plain exception raised inside `main` after the dispatch extension file has
been loaded and executed but before the dispatch entry point is invoked;
the top-level handler then makes the process exit 1. -/
theorem dispatch_opt_error_after_load (w : World) (cl : CmdLine) (t : List Char)
    (hmem : t ∈ cl.dispatchOpts) (ht : containsChar ':' t = false)
    (hpc : ∃ args, parse_cmd_line w.fs cl = .ok args)
    (hload : w.loadResult = .ok ()) :
    mainModel w cl = (.error (.exception dispatchOptErrMsg), [.loadExt]) ∧
      (runSkabelon w cl).1 = 1 := by
  obtain ⟨args, hargs⟩ := hpc
  have hopts : args.dispatchOpts = cl.dispatchOpts :=
    parse_cmd_line_opts w.fs cl args hargs
  have herr : parseDispatchOpts cl.dispatchOpts = .error dispatchOptErrMsg :=
    parseOptsAux_error_of_bad t ht cl.dispatchOpts [] hmem
  constructor
  · simp only [mainModel, hargs, hload, hopts, herr]
  · simp only [runSkabelon, mainModel, hargs, hload, hopts, herr, topLevel]

/-- Witness for the amended C3 on the concrete world `wValid` and command
line `clC3`. -/
theorem dispatch_opt_error_after_load_witness :
    (['x'] ∈ clC3.dispatchOpts) ∧
      (mainModel wValid clC3 = (.error (.exception dispatchOptErrMsg), [.loadExt]) ∧
        (runSkabelon wValid clC3).1 = 1) :=
  ⟨by decide,
    dispatch_opt_error_after_load wValid clC3 ['x'] (by decide) (by decide)
      ⟨⟨"templates", "d.py", [['x']]⟩, rfl⟩ rfl⟩

/-! Render-loop claims: worlds with failing templates, the happy path, and
the dispatch-script suffix check. -/

/-- A template whose rendering always raises, as Jinja2 does on an undefined
variable under `StrictUndefined` or on an operation over an undefined value. -/
def failTemplate : Template := fun _ => .error "UndefinedError: name is undefined"

/-- World whose only instruction renders `t.tmpl` to `out.txt` but whose
template raises at render time. -/
def wC4 : World :=
  ⟨fsAll, .ok (), fun _ => .ok [⟨"t.tmpl", [], "out.txt"⟩], fun _ => .ok failTemplate⟩

/-- Command line with valid paths and no dispatch opts. -/
def clPlain : CmdLine := ⟨"templates", "d.py", []⟩

/-- Instruction rendering `t.tmpl` with an empty context to `out.txt`. -/
def instC4 : Instruction := ⟨"t.tmpl", [], "out.txt"⟩

/-- C4 counterexample: starting from an empty file store, a run whose single
instruction fails at render time still leaves `out.txt` created (truncated to
empty): the output path is opened for writing before the template is
rendered, so the claimed render-before-open order is false. -/
theorem render_failure_truncates_counterexample :
    (mainModel wC4 clPlain).1 =
        .error (.exception "UndefinedError: name is undefined") ∧
      applyEvents [] (mainModel wC4 clPlain).2 = [("out.txt", "")] :=
  ⟨rfl, rfl⟩

/-- C4 amended: for each render instruction the template is loaded first — a
load failure (missing template or template syntax error) touches no file —
then the output path is opened for writing (truncating/creating), and only
then is the template rendered and the text written; hence a render failure
(such as an undefined variable) leaves the output file created/truncated and
empty rather than untouched. -/
theorem open_before_render (g : String → Except String Template)
    (i : Instruction) :
    (∀ e, g i.tname = .error e → processInstruction g i = ([], some e)) ∧
      (∀ t e, g i.tname = .ok t → t i.context = .error e →
        processInstruction g i = ([Event.openW i.output], some e)) ∧
      (∀ t text, g i.tname = .ok t → t i.context = .ok text →
        processInstruction g i =
          ([Event.openW i.output, Event.fileWrite i.output text], none)) := by
  refine ⟨?_, ?_, ?_⟩
  · intro e he
    simp only [processInstruction, he]
  · intro t e ht he
    simp only [processInstruction, ht, he]
  · intro t text ht htext
    simp only [processInstruction, ht, htext]

/-- Witness for the amended C4: on `wC4`'s template the render fails and the
instruction's trace is exactly one open (create/truncate) of `out.txt`. -/
theorem open_before_render_witness :
    processInstruction wC4.getTemplate instC4 =
      ([Event.openW "out.txt"], some "UndefinedError: name is undefined") :=
  (open_before_render wC4.getTemplate instC4).2.1 failTemplate
    "UndefinedError: name is undefined" rfl rfl

/-! Helper lemmas for the render loop. -/

theorem createdPaths_append (a b : List Event) :
    createdPaths (a ++ b) = createdPaths a ++ createdPaths b := by
  simp [createdPaths]

theorem createdPaths_success (g : String → Except String Template)
    (i : Instruction) (h : (processInstruction g i).2 = none) :
    createdPaths (processInstruction g i).1 = [i.output] := by
  unfold processInstruction at h ⊢
  cases hg : g i.tname with
  | error e => simp [hg] at h
  | ok t =>
    cases ht : t i.context with
    | error e => simp [hg, ht] at h
    | ok text => simp [hg, ht, createdPaths]

theorem renderLoop_append (g : String → Except String Template)
    (pre tail : List Instruction)
    (h : ∀ j ∈ pre, (processInstruction g j).2 = none) :
    renderLoop g (pre ++ tail) =
      ((pre.map (fun j => (processInstruction g j).1)).flatten ++
          (renderLoop g tail).1,
        (renderLoop g tail).2) := by
  induction pre with
  | nil => simp [renderLoop]
  | cons i rest ih =>
    have hi : (processInstruction g i).2 = none := h i (List.mem_cons_self i rest)
    have hrest : ∀ j ∈ rest, (processInstruction g j).2 = none :=
      fun j hj => h j (List.mem_cons_of_mem i hj)
    rw [List.cons_append, renderLoop, ih hrest]
    cases hp : processInstruction g i with
    | mk evs err =>
      rw [hp] at hi
      cases err with
      | some e => simp at hi
      | none => simp [hp]

theorem renderLoop_head_fail (g : String → Except String Template)
    (i : Instruction) (rest : List Instruction) (e : String)
    (h : g i.tname = .error e) :
    renderLoop g (i :: rest) = ([], some e) := by
  have hp : processInstruction g i = ([], some e) := by
    simp only [processInstruction, h]
  rw [renderLoop, hp]

theorem createdPaths_join_success (g : String → Except String Template) :
    ∀ pre : List Instruction, (∀ j ∈ pre, (processInstruction g j).2 = none) →
      createdPaths ((pre.map (fun j => (processInstruction g j).1)).flatten) =
        pre.map (fun j => j.output) := by
  intro pre
  induction pre with
  | nil => intro h; simp [createdPaths]
  | cons i rest ih =>
    intro h
    have hi := createdPaths_success g i (h i (List.mem_cons_self i rest))
    have hrest := ih (fun j hj => h j (List.mem_cons_of_mem i hj))
    rw [List.map_cons, List.flatten_cons, createdPaths_append, hi, hrest,
      List.map_cons, List.singleton_append]

/-- C5: when every instruction before `i` succeeds and the template of `i`
is missing, exactly the earlier instructions' output files are created, in
the order yielded, the process exits non-zero (code 1), and no file for `i`
or any later instruction is created. -/
theorem missing_template_stops_run (w : World) (cl args : CmdLine)
    (opts : OptDict) (pre : List Instruction) (i : Instruction)
    (rest : List Instruction) (e : String)
    (hpc : parse_cmd_line w.fs cl = .ok args)
    (hload : w.loadResult = .ok ())
    (hopts : parseDispatchOpts args.dispatchOpts = .ok opts)
    (hdisp : w.dispatch opts = .ok (pre ++ i :: rest))
    (hpre : ∀ j ∈ pre, (processInstruction w.getTemplate j).2 = none)
    (hmiss : w.getTemplate i.tname = .error e) :
    (runSkabelon w cl).1 = 1 ∧
      createdPaths (runSkabelon w cl).2 = pre.map (fun j => j.output) := by
  have hloop : renderLoop w.getTemplate (pre ++ i :: rest) =
      ((pre.map (fun j => (processInstruction w.getTemplate j).1)).flatten,
        some e) := by
    rw [renderLoop_append w.getTemplate pre (i :: rest) hpre,
        renderLoop_head_fail w.getTemplate i rest e hmiss]
    simp
  constructor
  · simp only [runSkabelon, mainModel, hpc, hload, hopts, hdisp, hloop, topLevel]
  · simp only [runSkabelon, mainModel, hpc, hload, hopts, hdisp, hloop]
    have hjoin := createdPaths_join_success w.getTemplate pre hpre
    simp only [createdPaths, List.filterMap_cons] at hjoin ⊢
    exact hjoin

/-- Template rendering the constant text `A`. -/
def tmplA : Template := fun _ => .ok "A"

/-- Template lookup that knows `a.tmpl` only. -/
def gC5 : String → Except String Template := fun n =>
  if n = "a.tmpl" then .ok tmplA else .error "TemplateNotFound"

/-- First instruction of the C5 scenario. -/
def inst1 : Instruction := ⟨"a.tmpl", [], "out1.txt"⟩

/-- Second instruction of the C5 scenario: its template is missing. -/
def inst2 : Instruction := ⟨"b.tmpl", [], "out2.txt"⟩

/-- Third instruction of the C5 scenario, never reached. -/
def inst3 : Instruction := ⟨"a.tmpl", [], "out3.txt"⟩

/-- World yielding the three instructions of the C5 scenario. -/
def wC5 : World := ⟨fsAll, .ok (), fun _ => .ok [inst1, inst2, inst3], gC5⟩

/-- Witness for C5: with three instructions and the second template missing,
only `out1.txt` is created and the exit code is 1. -/
theorem missing_template_stops_run_witness :
    (runSkabelon wC5 clPlain).1 = 1 ∧
      createdPaths (runSkabelon wC5 clPlain).2 =
        [inst1].map (fun j => j.output) :=
  missing_template_stops_run wC5 clPlain ⟨"templates", "d.py", []⟩ []
    [inst1] inst2 [inst3] "TemplateNotFound" rfl rfl rfl rfl
    (by
      intro j hj
      rw [List.mem_singleton] at hj
      subst hj
      rfl)
    rfl

/-- Rendering of the template text `Hello {{ name }}`, modelled from the
templating-engine contract: substitute the context binding of `name` (an
unbound `name` renders as empty text under Jinja2's default undefined). -/
def helloTemplate : Template := fun ctx =>
  match lookupKey ctx "name" with
  | some v => .ok ("Hello " ++ v)
  | none => .ok "Hello "

/-- Template directory contents for C6: `t.tmpl` holds `Hello {{ name }}`. -/
def gC6 : String → Except String Template := fun n =>
  if n = "t.tmpl" then .ok helloTemplate else .error "TemplateNotFound"

/-- World for C6: the extension yields the single instruction
`("t.tmpl", {"name": "World"}, "out.txt")`. -/
def wC6 : World :=
  ⟨fsAll, .ok (), fun _ => .ok [⟨"t.tmpl", [("name", "World")], "out.txt"⟩], gC6⟩

/-- C6: on the one-instruction happy path the run writes `out.txt` with
content `Hello World` and the process exits 0. -/
theorem hello_world_run :
    (runSkabelon wC6 clPlain).1 = 0 ∧
      applyEvents [] (runSkabelon wC6 clPlain).2 = [("out.txt", "Hello World")] :=
  ⟨rfl, rfl⟩

/-- Filesystem in which every path exists and is a directory, and
`foo.py.txt` carries its `pathlib` suffixes `[".py", ".txt"]`. -/
def fsPyTxt : FileSystem :=
  ⟨fun _ => true, fun _ => true,
    fun p => if p = "foo.py.txt" then [".py", ".txt"] else []⟩

/-- C8 counterexample: the existing path `foo.py.txt`, whose final suffix is
`.txt` and not the recognized `.py`, is nevertheless accepted by
`dispatch_file`, because the source tests `'.py' in path.suffixes` rather
than the final suffix. -/
theorem dispatch_file_counterexample :
    dispatch_file fsPyTxt dispatchErrMsg "foo.py.txt" = .ok "foo.py.txt" ∧
      (fsPyTxt.suffixes "foo.py.txt").getLast? = some ".txt" :=
  ⟨rfl, rfl⟩

theorem mem_of_getLast_some {α : Type} :
    ∀ (l : List α) (a : α), l.getLast? = some a → a ∈ l := by
  intro l
  induction l with
  | nil => intro a h; simp [List.getLast?] at h
  | cons x xs ih =>
    intro a h
    cases xs with
    | nil =>
      rw [List.getLast?_singleton] at h
      cases h
      exact List.mem_singleton_self x
    | cons y ys =>
      rw [List.getLast?_cons_cons] at h
      exact List.mem_cons_of_mem x (ih a h)

/-- C8 amended: command-line parsing accepts a `--dispatch` path exactly when
the path exists and `.py` appears among the dotted suffixes of its final
component — not necessarily as the final suffix.  In particular every
existing path whose final suffix is `.py` is accepted, and every other path
is rejected with the configuration error. -/
theorem dispatch_file_accepts_iff (fs : FileSystem) (s : String) :
    (fs.pathExists s = true → (fs.suffixes s).getLast? = some ".py" →
      dispatch_file fs dispatchErrMsg s = .ok s) ∧
      (dispatch_file fs dispatchErrMsg s = .ok s ↔
        fs.pathExists s = true ∧ (fs.suffixes s).contains ".py" = true) ∧
      (fs.pathExists s = false ∨ (fs.suffixes s).contains ".py" = false →
        dispatch_file fs dispatchErrMsg s = .error dispatchErrMsg) := by
  have hiff : dispatch_file fs dispatchErrMsg s = .ok s ↔
      fs.pathExists s = true ∧ (fs.suffixes s).contains ".py" = true := by
    unfold dispatch_file
    constructor
    · intro h
      split at h
      · next hc => exact Bool.and_eq_true_iff.mp hc
      · cases h
    · intro hc
      rw [if_pos (Bool.and_eq_true_iff.mpr hc)]
  refine ⟨?_, hiff, ?_⟩
  · intro hex hlast
    refine hiff.mpr ⟨hex, ?_⟩
    have hmem : ".py" ∈ fs.suffixes s := mem_of_getLast_some _ _ hlast
    exact List.elem_eq_true_of_mem hmem
  · intro hor
    unfold dispatch_file
    rw [if_neg]
    intro hc
    rcases Bool.and_eq_true_iff.mp hc with ⟨h1, h2⟩
    rcases hor with h | h
    · rw [h1] at h; cases h
    · rw [h2] at h; cases h

/-- Witness for the amended C8: `d.py` exists with final suffix `.py` under
`fsAll` and is accepted. -/
theorem dispatch_file_accepts_iff_witness :
    dispatch_file fsAll dispatchErrMsg "d.py" = .ok "d.py" :=
  (dispatch_file_accepts_iff fsAll "d.py").1 rfl rfl

end Skabelon
